import Mathlib

/-!
Shallow embedding of the trace-capture-and-comparison engine of the
`agent-check` repository: the `TraceBuilder` accumulator
(`src/trace-builder.ts`), the run harness and mock wrappers
(`run.ts`), the mock constructors (`src/mock.ts`), the baseline
engine (`extractBaseline` / `compareBaseline` / `updateBaseline`) and the
trace codec (`serializeTrace` / `deserializeTrace`).

JavaScript values carried around as `unknown` are modelled by the JSON-like
type `JVal` (with an explicit `undef` constructor for `undefined`); numbers
are modelled by `Rat` (costs) and `Nat` (token counts, turn counts);
`Date.now()` readings are passed in as explicit `Int` parameters wherever the
source calls the clock.  JavaScript `Error` values are modelled by `ErrorVal`
(message / name / optional stack).  Asynchronous code is modelled by ordinary
functions: `await` is the identity in this embedding, and the
agent-versus-timer race of `run` is split into its two outcomes
(`runSettled`, `runTimedOut`).
-/

/-- A JSON-like JavaScript value (`unknown` in the source). `undef` models
`undefined`; objects are insertion-ordered key/value lists. -/
inductive JVal where
  | undef
  | null
  | bool (b : Bool)
  | num (q : Rat)
  | str (s : String)
  | arr (elems : List JVal)
  | obj (fields : List (String × JVal))

/-- A JavaScript `Error` value: `message`, `name`, optional `stack`. -/
structure ErrorVal where
  message : String
  name : String
  stack : Option String
deriving DecidableEq, Repr

/-- The `stopReason` union type of `Trace` in `types.ts`. -/
inductive StopReason where
  | converged
  | maxTurns
  | error
  | timeout
deriving DecidableEq, Repr

/-- Rendering of a `StopReason` as the string literal used in the source. -/
def StopReason.toStr : StopReason → String
  | .converged => "converged"
  | .maxTurns => "maxTurns"
  | .error => "error"
  | .timeout => "timeout"

/-- `TokenUsage` from `types.ts`: `total` is optional. -/
structure TokenUsage where
  input : Nat
  output : Nat
  total : Option Nat
deriving DecidableEq, Repr

/-- `ToolCall` from `types.ts`. -/
structure ToolCall where
  name : String
  input : JVal
  output : JVal
  error : Option ErrorVal
  duration : Int
  startedAt : Int
  endedAt : Int

/-- `Turn` as constructed by `TurnHandle.end` in `trace-builder.ts`. -/
structure Turn where
  index : Nat
  label : Option String
  toolCalls : List ToolCall
  response : Option String
  duration : Int
  startedAt : Int
  endedAt : Int
  metadata : Option (List (String × JVal))

/-- `Trace` from `types.ts` (the canonical `converged`/`stopReason`/`turns`
shape produced by `TraceBuilder.build`). -/
structure Trace where
  converged : Bool
  stopReason : StopReason
  error : Option ErrorVal
  input : JVal
  output : JVal
  toolCalls : List ToolCall
  turns : List Turn
  duration : Int
  startedAt : Int
  endedAt : Int
  cost : Option Rat
  tokens : Option TokenUsage
  metadata : List (String × JVal)

/-! ### TraceBuilder state and methods (`src/trace-builder.ts`) -/

/-- The private mutable fields of class `TraceBuilder`. -/
structure BuilderState where
  converged : Bool
  stopReason : StopReason
  error : Option ErrorVal
  input : JVal
  output : JVal
  toolCalls : List ToolCall
  turns : List Turn
  startedAt : Int
  cost : Option Rat
  tokens : Option TokenUsage
  metadata : List (String × JVal)
  outputOverridden : Bool

/-- `new TraceBuilder()`: field initializers plus `_startedAt = Date.now()`
(the clock reading is the `now` parameter). -/
def newTraceBuilder (now : Int) : BuilderState :=
  { converged := false
    stopReason := .error
    error := none
    input := .undef
    output := .undef
    toolCalls := []
    turns := []
    startedAt := now
    cost := none
    tokens := none
    metadata := []
    outputOverridden := false }

/-- `TraceBuilder.setInput`. -/
def BuilderState.setInput (b : BuilderState) (v : JVal) : BuilderState :=
  { b with input := v }

/-- `TraceBuilder.setOutput`: also raises the `_outputOverridden` flag. -/
def BuilderState.setOutput (b : BuilderState) (v : JVal) : BuilderState :=
  { b with output := v, outputOverridden := true }

/-- `TraceBuilder.setConverged`. -/
def BuilderState.setConverged (b : BuilderState) (c : Bool) : BuilderState :=
  { b with converged := c }

/-- `TraceBuilder.setStopReason`. -/
def BuilderState.setStopReason (b : BuilderState) (r : StopReason) : BuilderState :=
  { b with stopReason := r }

/-- `TraceBuilder.setError`. -/
def BuilderState.setError (b : BuilderState) (e : ErrorVal) : BuilderState :=
  { b with error := some e }

/-- `TraceBuilder.setCost`. -/
def BuilderState.setCost (b : BuilderState) (usd : Rat) : BuilderState :=
  { b with cost := some usd }

/-- `TraceBuilder.setTokens`: `total` defaults to `input + output`. -/
def BuilderState.setTokens (b : BuilderState) (tk : TokenUsage) : BuilderState :=
  { b with tokens := some ⟨tk.input, tk.output, some (tk.total.getD (tk.input + tk.output))⟩ }

/-- JavaScript object assignment `this._metadata[key] = value`: overwrite in
place if the key exists (keeping its position), else append. -/
def metaSet : List (String × JVal) → String → JVal → List (String × JVal)
  | [], k, v => [(k, v)]
  | (k', v') :: rest, k, v =>
    if k' = k then (k', v) :: rest else (k', v') :: metaSet rest k v

/-- `TraceBuilder.setMetadata`. -/
def BuilderState.setMetadata (b : BuilderState) (k : String) (v : JVal) : BuilderState :=
  { b with metadata := metaSet b.metadata k v }

/-- `TraceBuilder.recordToolCall`: appends to the flat tool-call list. -/
def BuilderState.recordToolCall (b : BuilderState) (c : ToolCall) : BuilderState :=
  { b with toolCalls := b.toolCalls ++ [c] }

/-- `TraceBuilder.addTurn`: appends to the turn list. -/
def BuilderState.addTurn (b : BuilderState) (t : Turn) : BuilderState :=
  { b with turns := b.turns ++ [t] }

/-- `TraceBuilder.build`: the frozen `Trace` snapshot (`endedAt = Date.now()`
is the `now` parameter; the `[...]` array copies are value copies here). -/
def BuilderState.build (b : BuilderState) (now : Int) : Trace :=
  { converged := b.converged
    stopReason := b.stopReason
    error := b.error
    input := b.input
    output := b.output
    toolCalls := b.toolCalls
    turns := b.turns
    duration := now - b.startedAt
    startedAt := b.startedAt
    endedAt := now
    cost := b.cost
    tokens := b.tokens
    metadata := b.metadata }

/-! ### TraceWriter and TurnHandle (`TraceBuilder.writer` in `trace-builder.ts`) -/

/-- The closure state of one `startTurn` handle: the captured `label` and
`metadata`, `turnStartedAt`, the private `turnToolCalls` array, the assigned
`turnIndex` and the mutable `turnResponse`. -/
structure TurnHandleState where
  turnIndex : Nat
  label : Option String
  hmeta : Option (List (String × JVal))
  turnStartedAt : Int
  turnToolCalls : List ToolCall
  turnResponse : Option String

/-- The argument record of `TraceWriter.addToolCall` / `TurnHandle.addToolCall`
(`duration` optional, defaulted to 0 by the writer). -/
structure WriterToolCall where
  name : String
  input : JVal
  output : JVal
  error : Option ErrorVal
  duration : Option Int

/-- The `ToolCall` a writer builds from a `WriterToolCall` at clock reading
`now` (both `writer.addToolCall` and `handle.addToolCall` use this shape). -/
def mkWriterToolCall (c : WriterToolCall) (now : Int) : ToolCall :=
  { name := c.name
    input := c.input
    output := c.output
    error := c.error
    duration := c.duration.getD 0
    startedAt := now - c.duration.getD 0
    endedAt := now }

/-- `writer().addToolCall`: records a `ToolCall` at trace level. -/
def writerAddToolCall (b : BuilderState) (c : WriterToolCall) (now : Int) : BuilderState :=
  b.recordToolCall (mkWriterToolCall c now)

/-- `writer().startTurn`: captures `turnStartedAt = Date.now()`, an empty
private tool-call list, and `turnIndex = this._turns.length`.  The builder
itself is not modified by `startTurn`. -/
def startTurn (b : BuilderState) (label : Option String)
    (md : Option (List (String × JVal))) (now : Int) : TurnHandleState :=
  { turnIndex := b.turns.length
    label := label
    hmeta := md
    turnStartedAt := now
    turnToolCalls := []
    turnResponse := none }

/-- `TurnHandle.addToolCall`: pushes the same `ToolCall` onto the handle's
private list and the builder's trace-level list. -/
def handleAddToolCall (h : TurnHandleState) (b : BuilderState)
    (c : WriterToolCall) (now : Int) : TurnHandleState × BuilderState :=
  let tc := mkWriterToolCall c now
  ({ h with turnToolCalls := h.turnToolCalls ++ [tc] },
   { b with toolCalls := b.toolCalls ++ [tc] })

/-- `TurnHandle.setResponse`: single overwrite of the captured response. -/
def handleSetResponse (h : TurnHandleState) (text : String) : TurnHandleState :=
  { h with turnResponse := some text }

/-- `TurnHandle.end`: appends the completed `Turn` to the builder. -/
def handleEnd (h : TurnHandleState) (b : BuilderState) (now : Int) : BuilderState :=
  b.addTurn
    { index := h.turnIndex
      label := h.label
      toolCalls := h.turnToolCalls
      response := h.turnResponse
      duration := now - h.turnStartedAt
      startedAt := h.turnStartedAt
      endedAt := now
      metadata := h.hmeta }

/-! ### Mock tool layer (`src/mock.ts` and the wrappers in `run.ts`) -/

/-- A thrown JavaScript value: either an `Error` instance or some other value
(carried as its `String(e)` form, which is all the source ever uses of it). -/
inductive Thrown where
  | errObj (e : ErrorVal)
  | nonError (strForm : String)

/-- `e instanceof Error ? e : new Error(String(e))`. -/
def coerceThrown : Thrown → ErrorVal
  | .errObj e => e
  | .nonError s => { message := s, name := "Error", stack := none }

/-- Outcome of invoking a mock implementation: normal return or throw. -/
inductive MockOutcome where
  | ret (v : JVal)
  | thr (t : Thrown)

/-- A `MockToolFn`: the callable (receiving the `this._toolName` binding the
wrapper installs, and the argument list) plus the `_isForbidden` tag. -/
structure MockFn where
  call : String → List JVal → MockOutcome
  isForbidden : Bool

/-- `args.length === 1 ? args[0] : args` — the recorded `input`. -/
def inputOfArgs : List JVal → JVal
  | [a] => a
  | args => .arr args

/-- The distinguished `ForbiddenToolError` value
(`message ?? `Forbidden tool "name" was called``, name `ForbiddenToolError`). -/
def forbiddenError (toolName : String) (msg : Option String) : ErrorVal :=
  { message := msg.getD ("Forbidden tool \"" ++ toolName ++ "\" was called")
    name := "ForbiddenToolError"
    stack := none }

/-- `mock.fn(value)` with a non-function argument: constant mock. -/
def mockConst (v : JVal) : MockFn :=
  { call := fun _ _ => .ret v, isForbidden := false }

/-- `mock.fn(impl)` with an implementation function. -/
def mockImpl (f : List JVal → MockOutcome) : MockFn :=
  { call := fun _ args => f args, isForbidden := false }

/-- `mock.forbidden(message?)`: always throws the distinguished error carrying
the invoking tool's name (read from the `this._toolName` binding). -/
def mockForbidden (msg : Option String) : MockFn :=
  { call := fun toolName _ => .thr (.errObj (forbiddenError toolName msg))
    isForbidden := true }

/-- The closure state of a `mock.sequence` mock: the fixed value list and the
mutable `callIndex`. -/
structure SeqMock where
  values : List JVal
  callIndex : Nat

/-- `mock.sequence(values)`: fails synchronously at construction on an empty
list, otherwise starts with `callIndex = 0`. -/
def mockSequence (values : List JVal) : Except ErrorVal SeqMock :=
  if values.length = 0 then
    .error { message := "mock.sequence() requires at least one value"
             name := "Error", stack := none }
  else
    .ok { values := values, callIndex := 0 }

/-- One invocation of a sequence mock: returns `values[callIndex]` while in
range, else the final value, and increments `callIndex`. -/
def seqCall (s : SeqMock) : JVal × SeqMock :=
  (if s.callIndex < s.values.length then s.values.getD s.callIndex .undef
   else s.values.getD (s.values.length - 1) .undef,
   { s with callIndex := s.callIndex + 1 })

/-- The outputs of the first `n` successive invocations of a sequence mock. -/
def seqOutputs (s : SeqMock) : Nat → List JVal
  | 0 => []
  | n + 1 =>
    let (v, s') := seqCall s
    v :: seqOutputs s' n

/-- `wrapMock` from `run.ts`: invoke the implementation with `this._toolName`
bound to the tool's name; the `finally` block records a `ToolCall` (with
`error` set on throw, `output` left `undefined`) in both cases; a throw is
re-raised after recording.  `startedAt`/`endedAt` are the two clock readings
`t0`/`t1`. -/
def wrapMock (name : String) (fn : MockFn) (t0 t1 : Int)
    (b : BuilderState) (args : List JVal) : BuilderState × Except ErrorVal JVal :=
  match fn.call name args with
  | .ret v =>
    (b.recordToolCall
      { name := name, input := inputOfArgs args, output := v, error := none
        duration := t1 - t0, startedAt := t0, endedAt := t1 },
     .ok v)
  | .thr t =>
    let e := coerceThrown t
    (b.recordToolCall
      { name := name, input := inputOfArgs args, output := .undef, error := some e
        duration := t1 - t0, startedAt := t0, endedAt := t1 },
     .error e)

/-- `wrapAsyncMock` from `run.ts`: identical to `wrapMock` except that the
implementation's result is awaited, which is the identity in this embedding. -/
def wrapAsyncMock (name : String) (fn : MockFn) (t0 t1 : Int)
    (b : BuilderState) (args : List JVal) : BuilderState × Except ErrorVal JVal :=
  match fn.call name args with
  | .ret v =>
    (b.recordToolCall
      { name := name, input := inputOfArgs args, output := v, error := none
        duration := t1 - t0, startedAt := t0, endedAt := t1 },
     .ok v)
  | .thr t =>
    let e := coerceThrown t
    (b.recordToolCall
      { name := name, input := inputOfArgs args, output := .undef, error := some e
        duration := t1 - t0, startedAt := t0, endedAt := t1 },
     .error e)

/-! ### Run harness (`run` in `run.ts`)

The agent function is opaque to the harness: all it can do to the builder is
issue `TraceWriter` operations and invoke wrapped tools via `ctx.tools`.  An
agent execution is therefore modelled as the list of such interactions
(`WCmd`) together with how it settled (`AgentResult`: returned a value or
threw).  A sequential embedding cannot model the timer, so the
`Promise.race` of `run` is split into its two outcomes: `runSettled` (the
agent's `execute()` settles first) and `runTimedOut` (the timer fires first,
with the agent's interactions so far as the partial command list). -/

def DEFAULT_TIMEOUT : Nat := 30000

/-- One interaction of the agent with the run context: a `TraceWriter`
operation, a turn-handle operation (handles are numbered in creation order),
or an invocation of a wrapped tool from `ctx.tools`. -/
inductive WCmd where
  | setOutput (v : JVal)
  | setCost (usd : Rat)
  | setTokens (tk : TokenUsage)
  | setMetadata (k : String) (v : JVal)
  | addToolCall (c : WriterToolCall) (now : Int)
  | startTurn (label : Option String) (md : Option (List (String × JVal))) (now : Int)
  | turnAddToolCall (h : Nat) (c : WriterToolCall) (now : Int)
  | turnSetResponse (h : Nat) (text : String)
  | turnEnd (h : Nat) (now : Int)
  | invokeTool (name : String) (args : List JVal) (t0 t1 : Int)

/-- Builder state plus the turn handles created so far (in creation order). -/
def ScriptState := BuilderState × List TurnHandleState

/-- `run` wires each named mock through `wrapMock` (forbidden mocks) or
`wrapAsyncMock` (everything else). -/
def trackedTool (name : String) (fn : MockFn) (t0 t1 : Int)
    (b : BuilderState) (args : List JVal) : BuilderState × Except ErrorVal JVal :=
  if fn.isForbidden then wrapMock name fn t0 t1 b args
  else wrapAsyncMock name fn t0 t1 b args

/-- Effect of one agent interaction on the builder and handle list.  A tool
invocation's effect on the builder is the wrapper's recording, whether or not
the call threw (an agent that continues past a throw has caught it; one that
does not ends with a thrown result). -/
def execCmd (mocks : List (String × MockFn)) (s : ScriptState) : WCmd → ScriptState
  | .setOutput v => (s.1.setOutput v, s.2)
  | .setCost usd => (s.1.setCost usd, s.2)
  | .setTokens tk => (s.1.setTokens tk, s.2)
  | .setMetadata k v => (s.1.setMetadata k v, s.2)
  | .addToolCall c now => (writerAddToolCall s.1 c now, s.2)
  | .startTurn label md now => (s.1, s.2 ++ [startTurn s.1 label md now])
  | .turnAddToolCall i c now =>
    match s.2.get? i with
    | some h =>
      let hb := handleAddToolCall h s.1 c now
      (hb.2, s.2.set i hb.1)
    | none => s
  | .turnSetResponse i text =>
    match s.2.get? i with
    | some h => (s.1, s.2.set i (handleSetResponse h text))
    | none => s
  | .turnEnd i now =>
    match s.2.get? i with
    | some h => (handleEnd h s.1 now, s.2)
    | none => s
  | .invokeTool name args t0 t1 =>
    match (mocks.find? (fun p => p.1 = name)).map Prod.snd with
    | some fn => ((trackedTool name fn t0 t1 s.1 args).1, s.2)
    | none => s

/-- An agent execution: its interactions in order. -/
def execScript (mocks : List (String × MockFn)) (cmds : List WCmd)
    (s : ScriptState) : ScriptState :=
  cmds.foldl (execCmd mocks) s

/-- How the agent's `execute()` settled. -/
inductive AgentResult where
  | ok (v : JVal)
  | thrown (t : Thrown)

/-- An agent execution as observed by the harness: interactions plus result. -/
structure AgentScript where
  cmds : List WCmd
  result : AgentResult

/-- `RunOptions` from `types.ts` (`timeout` defaulted inside `run`). -/
structure RunOptions where
  input : JVal := .undef
  mocks : List (String × MockFn) := []
  timeout : Option Nat := none
  metadata : List (String × JVal) := []

/-- The builder `run` prepares before invoking the agent: `new TraceBuilder()`
at clock `t0`, `setInput(input)`, then one `setMetadata` per options entry. -/
def seedBuilder (opts : RunOptions) (t0 : Int) : BuilderState :=
  opts.metadata.foldl (fun b kv => b.setMetadata kv.1 kv.2)
    ((newTraceBuilder t0).setInput opts.input)

/-- `run` when the agent's `execute()` settles before the timer: the
`try`/`catch` of `execute` classifies the outcome, then `build()` is called
at clock `tEnd`.  On success the return value becomes the output unless the
accumulator's output was already overridden. -/
def runSettled (agent : AgentScript) (opts : RunOptions) (t0 tEnd : Int) : Trace :=
  let s := execScript opts.mocks agent.cmds (seedBuilder opts t0, [])
  let b1 := s.1
  let b2 := match agent.result with
    | .ok v =>
      let b := (b1.setConverged true).setStopReason .converged
      if b.outputOverridden then b else b.setOutput v
    | .thrown t =>
      (((b1.setError (coerceThrown t)).setConverged false).setStopReason .error)
  b2.build tEnd

/-- `run` when the timeout timer fires first: `cmds` are the agent's
interactions up to that point; the harness sets `converged=false`,
`stopReason="timeout"` and the synthesized timeout error, then builds. -/
def runTimedOut (cmds : List WCmd) (opts : RunOptions) (t0 tEnd : Int) : Trace :=
  let timeoutMs := opts.timeout.getD DEFAULT_TIMEOUT
  let s := execScript opts.mocks cmds (seedBuilder opts t0, [])
  let b2 := ((s.1.setConverged false).setStopReason .timeout).setError
    { message := "Agent timed out after " ++ toString timeoutMs ++ "ms"
      name := "Error", stack := none }
  b2.build tEnd

/-- Step function of `lastSetOutput`: a `setOutput` replaces the accumulator,
anything else keeps it. -/
def lsoStep (acc : Option JVal) : WCmd → Option JVal
  | .setOutput v => some v
  | _ => acc

/-- The value of the last `setOutput` interaction of a command list, if any. -/
def lastSetOutput (cmds : List WCmd) : Option JVal :=
  cmds.foldl lsoStep none

/-! ### Baseline engine (`extractBaseline` / `compareBaseline` /
`updateBaseline` in `baseline.ts`) -/

/-- A `{min, max}` range. -/
structure NRange (α : Type) where
  min : α
  max : α
deriving DecidableEq, Repr

/-- `[...new Set(xs)]`: first occurrences, in insertion order.  `seen`
accumulates the elements already produced. -/
def dedupAux (seen : List String) : List String → List String
  | [] => []
  | x :: xs => if x ∈ seen then dedupAux seen xs else x :: dedupAux (x :: seen) xs

/-- `[...new Set(xs)]`. -/
def dedupFirst (xs : List String) : List String := dedupAux [] xs

/-- Insert into a sorted list (string order; JavaScript's default `sort()`
compares strings, and only the fact that extraction and comparison sort the
same way matters to the theorems below). -/
def insertStr (x : String) : List String → List String
  | [] => [x]
  | y :: ys => if x < y then x :: y :: ys else y :: insertStr x ys

/-- `xs.sort()` on an array of strings, as insertion sort. -/
def sortStrings : List String → List String
  | [] => []
  | x :: xs => insertStr x (sortStrings xs)

/-- `Baseline` (the structural envelope; `version` is currently always 1). -/
structure Baseline where
  version : Nat
  toolSet : List String
  toolOrder : List String
  turnCount : NRange Nat
  costRange : Option (NRange Rat)
  tokenRange : Option (NRange Nat)
  outputShape : List String
  stopReason : StopReason
  metadata : Option (List (String × JVal))

/-- `BaselineDiff`. -/
structure BaselineDiff where
  pass : Bool
  differences : List String
deriving Repr

/-- `extractBaseline(trace)`. -/
def extractBaseline (trace : Trace) : Baseline :=
  let toolNames := trace.toolCalls.map ToolCall.name
  let toolSet := sortStrings (dedupFirst toolNames)
  let turnCount := trace.turns.length
  let outputShape : List String :=
    match trace.output with
    | .obj fields => sortStrings (fields.map Prod.fst)
    | _ => []
  { version := 1
    toolSet := toolSet
    toolOrder := toolNames
    turnCount := ⟨turnCount, turnCount⟩
    costRange := match trace.cost with
      | some c => some ⟨c, c⟩
      | none => none
    tokenRange := match trace.tokens with
      | some tk =>
        match tk.total with
        | some tot => some ⟨tot, tot⟩
        | none => some ⟨tk.input + tk.output, tk.input + tk.output⟩
      | none => none
    outputShape := outputShape
    stopReason := trace.stopReason
    metadata := none }

/-- `compareBaseline(trace, baseline)`: all six dimensions are checked and the
diff is their union; the tool-order check's `JSON.stringify` equality of two
string arrays is list equality. -/
def compareBaseline (trace : Trace) (baseline : Baseline) : BaselineDiff :=
  let traceToolSet := sortStrings (dedupFirst (trace.toolCalls.map ToolCall.name))
  let baselineToolSet := sortStrings baseline.toolSet
  let addedTools := traceToolSet.filter (fun t => ¬ t ∈ baselineToolSet)
  let removedTools := baselineToolSet.filter (fun t => ¬ t ∈ traceToolSet)
  let setDiffs : List String :=
    (if addedTools.length > 0 then
      ["New tools used: [" ++ String.intercalate ", " addedTools ++ "]"] else []) ++
    (if removedTools.length > 0 then
      ["Tools no longer used: [" ++ String.intercalate ", " removedTools ++ "]"] else [])
  let traceToolOrder := trace.toolCalls.map ToolCall.name
  let orderDiffs : List String :=
    if traceToolOrder = baseline.toolOrder then []
    else ["Tool order changed: expected [" ++ String.intercalate ", " baseline.toolOrder
          ++ "], got [" ++ String.intercalate ", " traceToolOrder ++ "]"]
  let turnCount := trace.turns.length
  let turnDiffs : List String :=
    if turnCount < baseline.turnCount.min ∨ turnCount > baseline.turnCount.max then
      ["Turn count " ++ toString turnCount ++ " outside expected range ["
       ++ toString baseline.turnCount.min ++ ", " ++ toString baseline.turnCount.max ++ "]"]
    else []
  let costDiffs : List String :=
    match baseline.costRange, trace.cost with
    | some r, some c =>
      if c < r.min ∨ c > r.max then
        ["Cost $" ++ toString c ++ " outside expected range [$"
         ++ toString r.min ++ ", $" ++ toString r.max ++ "]"]
      else []
    | _, _ => []
  let tokenDiffs : List String :=
    match baseline.tokenRange, trace.tokens with
    | some r, some tk =>
      let total := tk.total.getD (tk.input + tk.output)
      if total < r.min ∨ total > r.max then
        ["Token count " ++ toString total ++ " outside expected range ["
         ++ toString r.min ++ ", " ++ toString r.max ++ "]"]
      else []
    | _, _ => []
  let stopDiffs : List String :=
    if trace.stopReason = baseline.stopReason then []
    else ["Stop reason changed: expected \"" ++ baseline.stopReason.toStr
          ++ "\", got \"" ++ trace.stopReason.toStr ++ "\""]
  let differences := setDiffs ++ orderDiffs ++ turnDiffs ++ costDiffs ++ tokenDiffs ++ stopDiffs
  { pass := differences.length = 0, differences := differences }

/-- `updateBaseline(existing, trace)`: widen set/range dimensions with the
trace's freshly extracted envelope; keep `toolOrder`, `stopReason` and
`metadata` from the existing baseline. -/
def updateBaseline (existing : Baseline) (trace : Trace) : Baseline :=
  let traceBaseline := extractBaseline trace
  let toolSet := sortStrings (dedupFirst (existing.toolSet ++ traceBaseline.toolSet))
  let turnCount : NRange Nat :=
    ⟨min existing.turnCount.min traceBaseline.turnCount.min,
     max existing.turnCount.max traceBaseline.turnCount.max⟩
  let costRange : Option (NRange Rat) :=
    match traceBaseline.costRange with
    | some tr =>
      match existing.costRange with
      | some er => some ⟨min er.min tr.min, max er.max tr.max⟩
      | none => some tr
    | none => existing.costRange
  let tokenRange : Option (NRange Nat) :=
    match traceBaseline.tokenRange with
    | some tr =>
      match existing.tokenRange with
      | some er => some ⟨min er.min tr.min, max er.max tr.max⟩
      | none => some tr
    | none => existing.tokenRange
  let outputShape := sortStrings (dedupFirst (existing.outputShape ++ traceBaseline.outputShape))
  { version := 1
    toolSet := toolSet
    toolOrder := existing.toolOrder
    turnCount := turnCount
    costRange := costRange
    tokenRange := tokenRange
    outputShape := outputShape
    stopReason := existing.stopReason
    metadata := existing.metadata }

/-! ### Trace codec (`serializeTrace` / `deserializeTrace` in `trace-io.ts`) -/

/-- The tagged plain structure `serializeError` produces (`__isError: true`,
message, name, stack). -/
structure SerializedError where
  isError : Bool
  message : String
  name : String
  stack : Option String
deriving DecidableEq, Repr

/-- `serializeError`. -/
def serializeError (e : ErrorVal) : SerializedError :=
  { isError := true, message := e.message, name := e.name, stack := e.stack }

/-- `deserializeError`: `new Error(obj.message)` (whose engine-generated stack
is the `autoStack` parameter), name copied, stack copied only when the stored
stack is truthy (a present, non-empty string). -/
def deserializeError (autoStack : String) (o : SerializedError) : ErrorVal :=
  { message := o.message
    name := o.name
    stack := match o.stack with
      | some s => if s = "" then some autoStack else some s
      | none => some autoStack }

/-- `isSerializedError`: the value is an object bearing `__isError === true`. -/
def isSerializedError : Option SerializedError → Bool
  | some o => o.isError
  | none => false

/-- A serialized `ToolCall` (the `{...tc, error: ...}` spread). -/
structure SToolCall where
  name : String
  input : JVal
  output : JVal
  error : Option SerializedError
  duration : Int
  startedAt : Int
  endedAt : Int

/-- A serialized `Turn` (the `{...turn, toolCalls: ...}` spread).  On the
deserializing side `toolCalls` may be absent (`?? []`). -/
structure STurn where
  index : Nat
  label : Option String
  toolCalls : Option (List SToolCall)
  response : Option String
  duration : Int
  startedAt : Int
  endedAt : Int
  metadata : Option (List (String × JVal))

/-- The document shape `serializeTrace` emits and `deserializeTrace` reads;
`toolCalls`/`turns`/`metadata` are optional on the reading side. -/
structure STrace where
  converged : Bool
  stopReason : StopReason
  error : Option SerializedError
  input : JVal
  output : JVal
  toolCalls : Option (List SToolCall)
  turns : Option (List STurn)
  duration : Int
  startedAt : Int
  endedAt : Int
  cost : Option Rat
  tokens : Option TokenUsage
  metadata : Option (List (String × JVal))

/-- The per-tool-call part of `serializeTrace`. -/
def serializeToolCall (tc : ToolCall) : SToolCall :=
  { name := tc.name
    input := tc.input
    output := tc.output
    error := match tc.error with
      | some e => some (serializeError e)
      | none => none
    duration := tc.duration
    startedAt := tc.startedAt
    endedAt := tc.endedAt }

/-- The per-turn part of `serializeTrace`. -/
def serializeTurn (t : Turn) : STurn :=
  { index := t.index
    label := t.label
    toolCalls := some (t.toolCalls.map serializeToolCall)
    response := t.response
    duration := t.duration
    startedAt := t.startedAt
    endedAt := t.endedAt
    metadata := t.metadata }

/-- `serializeTrace`. -/
def serializeTrace (trace : Trace) : STrace :=
  { converged := trace.converged
    stopReason := trace.stopReason
    error := match trace.error with
      | some e => some (serializeError e)
      | none => none
    input := trace.input
    output := trace.output
    toolCalls := some (trace.toolCalls.map serializeToolCall)
    turns := some (trace.turns.map serializeTurn)
    duration := trace.duration
    startedAt := trace.startedAt
    endedAt := trace.endedAt
    cost := trace.cost
    tokens := trace.tokens
    metadata := some trace.metadata }

/-- The error reconstruction applied to each optional error slot:
`isSerializedError(x) ? deserializeError(x) : undefined`. -/
def deserializeErrorSlot (autoStack : String) (o : Option SerializedError) : Option ErrorVal :=
  if isSerializedError o then (o.map (deserializeError autoStack)) else none

/-- The per-tool-call part of `deserializeTrace`. -/
def deserializeToolCall (autoStack : String) (tc : SToolCall) : ToolCall :=
  { name := tc.name
    input := tc.input
    output := tc.output
    error := deserializeErrorSlot autoStack tc.error
    duration := tc.duration
    startedAt := tc.startedAt
    endedAt := tc.endedAt }

/-- The per-turn part of `deserializeTrace` (`turn.toolCalls ?? []`). -/
def deserializeTurn (autoStack : String) (t : STurn) : Turn :=
  { index := t.index
    label := t.label
    toolCalls := (t.toolCalls.getD []).map (deserializeToolCall autoStack)
    response := t.response
    duration := t.duration
    startedAt := t.startedAt
    endedAt := t.endedAt
    metadata := t.metadata }

/-- `deserializeTrace` (defaults: `toolCalls ?? []`, `turns ?? []`,
`metadata ?? {}`). -/
def deserializeTrace (autoStack : String) (d : STrace) : Trace :=
  { converged := d.converged
    stopReason := d.stopReason
    error := deserializeErrorSlot autoStack d.error
    input := d.input
    output := d.output
    toolCalls := (d.toolCalls.getD []).map (deserializeToolCall autoStack)
    turns := (d.turns.getD []).map (deserializeTurn autoStack)
    duration := d.duration
    startedAt := d.startedAt
    endedAt := d.endedAt
    cost := d.cost
    tokens := d.tokens
    metadata := d.metadata.getD [] }

/-! ### Heap model of the builder's arrays (`TraceBuilder.build`)

`build` returns `toolCalls: Object.freeze([...this._toolCalls])` and
`turns: Object.freeze([...this._turns])`: fresh copies, not live views of the
builder's internal arrays.  To state that claim at all, the two mutable
arrays are modelled as references into an explicit heap of arrays; the spread
copy becomes allocation of a fresh reference holding the current contents. -/

/-- The heap: all tool-call arrays and turn arrays ever allocated, addressed
by position. -/
structure TBHeap where
  tcArrays : List (List ToolCall)
  turnArrays : List (List Turn)

/-- The builder's two array references (`this._toolCalls`, `this._turns`). -/
structure TBRefs where
  tcRef : Nat
  turnRef : Nat

/-- The array references held by a built trace. -/
structure TraceArrayRefs where
  tcRef : Nat
  turnRef : Nat

def readTC (h : TBHeap) (r : Nat) : List ToolCall := h.tcArrays.getD r []

def readTurns (h : TBHeap) (r : Nat) : List Turn := h.turnArrays.getD r []

def writeTC (h : TBHeap) (r : Nat) (xs : List ToolCall) : TBHeap :=
  { h with tcArrays := h.tcArrays.set r xs }

def writeTurns (h : TBHeap) (r : Nat) (xs : List Turn) : TBHeap :=
  { h with turnArrays := h.turnArrays.set r xs }

/-- Allocate a fresh tool-call array (the `[...]` spread copy). -/
def allocTC (h : TBHeap) (xs : List ToolCall) : TBHeap × Nat :=
  ({ h with tcArrays := h.tcArrays ++ [xs] }, h.tcArrays.length)

/-- Allocate a fresh turn array (the `[...]` spread copy). -/
def allocTurns (h : TBHeap) (xs : List Turn) : TBHeap × Nat :=
  ({ h with turnArrays := h.turnArrays ++ [xs] }, h.turnArrays.length)

/-- `recordToolCall` in the heap model: push onto the builder's array. -/
def hRecordToolCall (h : TBHeap) (b : TBRefs) (c : ToolCall) : TBHeap :=
  writeTC h b.tcRef (readTC h b.tcRef ++ [c])

/-- `addTurn` in the heap model: push onto the builder's array (this is also
what `TurnHandle.end` does to the builder). -/
def hAddTurn (h : TBHeap) (b : TBRefs) (t : Turn) : TBHeap :=
  writeTurns h b.turnRef (readTurns h b.turnRef ++ [t])

/-- `TurnHandle.end` in the heap model: appends the completed turn built from
the handle's state to the builder's turn array. -/
def hTurnEnd (h : TBHeap) (b : TBRefs) (hd : TurnHandleState) (now : Int) : TBHeap :=
  hAddTurn h b
    { index := hd.turnIndex
      label := hd.label
      toolCalls := hd.turnToolCalls
      response := hd.turnResponse
      duration := now - hd.turnStartedAt
      startedAt := hd.turnStartedAt
      endedAt := now
      metadata := hd.hmeta }

/-- The array part of `build()`: allocate fresh copies of both arrays
(`[...this._toolCalls]`, `[...this._turns]`) and hand the trace the new
references. -/
def hBuild (h : TBHeap) (b : TBRefs) : TBHeap × TraceArrayRefs :=
  let a1 := allocTC h (readTC h b.tcRef)
  let a2 := allocTurns a1.1 (readTurns a1.1 b.turnRef)
  (a2.1, { tcRef := a1.2, turnRef := a2.2 })

/-- Sequentially disciplined turn usage: `n` repetitions of
`startTurn` immediately followed by `end()` on the handle just created
(handle numbers are assigned in creation order, so the `i`-th turn uses
handle `i`). -/
def seqTurnCmds : Nat → List WCmd
  | 0 => []
  | n + 1 => seqTurnCmds n ++ [.startTurn none none 0, .turnEnd n 0]

/-- A concrete baseline used to witness the range-widening theorem. -/
def sampleBaseline : Baseline :=
  { version := 1
    toolSet := ["a"]
    toolOrder := ["a"]
    turnCount := ⟨1, 3⟩
    costRange := some ⟨1, 2⟩
    tokenRange := some ⟨10, 20⟩
    outputShape := []
    stopReason := .converged
    metadata := none }

/-- A concrete trace used to witness the range-widening theorem: cost 5,
tokens 3 + 4, no turns. -/
def sampleTrace : Trace :=
  { converged := true
    stopReason := .converged
    error := none
    input := .undef
    output := .undef
    toolCalls := []
    turns := []
    duration := 0
    startedAt := 0
    endedAt := 0
    cost := some 5
    tokens := some ⟨3, 4, none⟩
    metadata := [] }

/-! ### Helper lemmas -/

/-- From callIndex 1 onward a two-value sequence mock keeps returning the
second value. -/
lemma seqOutputs_pair_tail (a b : JVal) :
    ∀ (n k : Nat), 1 ≤ k → seqOutputs ⟨[a, b], k⟩ n = List.replicate n b := by
  intro n
  induction n with
  | zero => intro k _; rfl
  | succ m ih =>
    intro k hk
    simp only [seqOutputs, seqCall]
    rw [ih (k + 1) (Nat.le_succ_of_le hk)]
    rcases Nat.lt_or_ge k 2 with h2 | h2
    · have hk1 : k = 1 := by omega
      subst hk1
      simp [List.getD, List.replicate]
    · have h2' : ¬ k < 2 := by omega
      simp [h2', List.getD, List.replicate]

/-! #### C9: mock.sequence -/

/-- C9: `mock.sequence([])` fails synchronously at construction with the
source's error message; `mock.sequence([a,b])` constructs a mock whose first
call returns `a`, whose second call returns `b`, and whose every later call
repeats `b` (here: the outputs of the first `n` calls, for any `n ≥ 2`, are
`a`, then `n - 1` copies of `b`). -/
theorem mock_sequence_spec :
    mockSequence [] = Except.error
      { message := "mock.sequence() requires at least one value"
        name := "Error", stack := none } ∧
    (∀ a b : JVal, mockSequence [a, b] = Except.ok ⟨[a, b], 0⟩) ∧
    (∀ (a b : JVal) (n : Nat), 2 ≤ n →
      seqOutputs ⟨[a, b], 0⟩ n = a :: b :: List.replicate (n - 2) b) := by
  refine ⟨rfl, fun a b => rfl, fun a b n hn => ?_⟩
  obtain ⟨m, rfl⟩ : ∃ m, n = m + 2 := ⟨n - 2, by omega⟩
  have h2 := seqOutputs_pair_tail a b m 2 (by omega)
  simp [seqOutputs, seqCall, List.getD, Nat.add_sub_cancel, h2, List.replicate]

/-- Witness for `mock_sequence_spec`: concrete two-value sequence, four calls. -/
theorem mock_sequence_spec_witness :
    seqOutputs ⟨[JVal.num 1, JVal.num 2], 0⟩ 4 =
      [JVal.num 1, JVal.num 2, JVal.num 2, JVal.num 2] := by
  have h := (mock_sequence_spec.2.2) (JVal.num 1) (JVal.num 2) 4 (by omega)
  simpa [List.replicate] using h

/-! #### C2: timeout classification -/

/-- C2: whenever the timeout timer fires before the agent settles — whatever
interactions `cmds` the agent had produced up to that point — the returned
trace has `converged = false`, `stopReason = "timeout"`, and a synthesized
error whose message states the configured timeout value in milliseconds; the
configured value defaults to 30000 when `options.timeout` is not supplied. -/
theorem run_timeout_spec (cmds : List WCmd) (opts : RunOptions) (t0 tEnd : Int) :
    (runTimedOut cmds opts t0 tEnd).converged = false ∧
    (runTimedOut cmds opts t0 tEnd).stopReason = .timeout ∧
    (runTimedOut cmds opts t0 tEnd).error = some
      { message := "Agent timed out after "
          ++ toString (opts.timeout.getD DEFAULT_TIMEOUT) ++ "ms"
        name := "Error", stack := none } ∧
    (opts.timeout = none → opts.timeout.getD DEFAULT_TIMEOUT = 30000) := by
  refine ⟨rfl, rfl, rfl, fun h => ?_⟩
  rw [h]
  rfl

/-- Witness for `run_timeout_spec`: a run with no timeout option and no agent
activity defaults to 30000 ms and reports it in the error message. -/
theorem run_timeout_spec_witness :
    (runTimedOut [] {} 0 5).converged = false ∧
    (runTimedOut [] {} 0 5).stopReason = .timeout ∧
    (runTimedOut [] {} 0 5).error = some
      { message := "Agent timed out after 30000ms", name := "Error", stack := none } ∧
    ({} : RunOptions).timeout.getD DEFAULT_TIMEOUT = 30000 :=
  ⟨(run_timeout_spec [] {} 0 5).1,
   (run_timeout_spec [] {} 0 5).2.1,
   (run_timeout_spec [] {} 0 5).2.2.1,
   (run_timeout_spec [] {} 0 5).2.2.2 rfl⟩

/-! #### C3: thrown agent failures become trace data -/

/-- C3: `run` is a total function into traces in this embedding (it cannot
itself throw; the only precondition failure in the run pipeline is
`mock.sequence([])`, which fails at construction, before any run).  For every
agent that ends by throwing `E`, the trace has `converged = false`,
`stopReason = "error"`, and `error` is `E` itself when `E` is an `Error`
value, otherwise an `Error` wrapping `E`'s string form. -/
theorem run_agent_throw_spec (cmds : List WCmd) (t : Thrown) (opts : RunOptions)
    (t0 tEnd : Int) :
    (runSettled ⟨cmds, .thrown t⟩ opts t0 tEnd).converged = false ∧
    (runSettled ⟨cmds, .thrown t⟩ opts t0 tEnd).stopReason = .error ∧
    (runSettled ⟨cmds, .thrown t⟩ opts t0 tEnd).error = some (coerceThrown t) ∧
    (∀ e, t = .errObj e →
      (runSettled ⟨cmds, .thrown t⟩ opts t0 tEnd).error = some e) ∧
    (∀ s, t = .nonError s →
      (runSettled ⟨cmds, .thrown t⟩ opts t0 tEnd).error =
        some { message := s, name := "Error", stack := none }) ∧
    (∃ e, mockSequence [] = Except.error e) := by
  refine ⟨rfl, rfl, rfl, ?_, ?_, ⟨_, rfl⟩⟩
  · rintro e rfl; rfl
  · rintro s rfl; rfl

/-- Witness for `run_agent_throw_spec`: an agent that throws a plain `Error`
named "boom" yields a non-convergent trace carrying that error. -/
theorem run_agent_throw_spec_witness :
    (runSettled ⟨[], .thrown (.errObj ⟨"boom", "Error", none⟩)⟩ {} 0 1).converged = false ∧
    (runSettled ⟨[], .thrown (.errObj ⟨"boom", "Error", none⟩)⟩ {} 0 1).error =
      some ⟨"boom", "Error", none⟩ :=
  ⟨(run_agent_throw_spec [] (.errObj ⟨"boom", "Error", none⟩) {} 0 1).1,
   (run_agent_throw_spec [] (.errObj ⟨"boom", "Error", none⟩) {} 0 1).2.2.2.1
     ⟨"boom", "Error", none⟩ rfl⟩

/-- Folding `lsoStep` from any accumulator: the commands' own last `setOutput`
wins; the accumulator only survives when the commands contain none. -/
lemma foldl_lsoStep_acc : ∀ (cmds : List WCmd) (acc : Option JVal),
    cmds.foldl lsoStep acc =
      (match cmds.foldl lsoStep none with
       | some y => some y
       | none => acc) := by
  intro cmds
  induction cmds with
  | nil => intro acc; rfl
  | cons c cs ih =>
    intro acc
    cases c <;> simp only [List.foldl_cons, lsoStep] <;>
      [skip; exact ih acc; exact ih acc; exact ih acc; exact ih acc; exact ih acc;
       exact ih acc; exact ih acc; exact ih acc; exact ih acc]
    rw [ih]
    cases hcs : cs.foldl lsoStep none <;> simp [hcs]

/-- The output and output-override flag of the builder after an agent's
interactions: the last `setOutput` value if there is one, else the starting
output; the flag is raised exactly by a `setOutput`. -/
lemma execScript_outfields (mocks : List (String × MockFn)) :
    ∀ (cmds : List WCmd) (s : ScriptState),
    (execScript mocks cmds s).1.output =
      (match lastSetOutput cmds with
       | some y => y
       | none => s.1.output) ∧
    (execScript mocks cmds s).1.outputOverridden =
      ((lastSetOutput cmds).isSome || s.1.outputOverridden) := by
  intro cmds
  induction cmds with
  | nil => intro s; exact ⟨rfl, by simp [lastSetOutput, execScript]⟩
  | cons c cs ih =>
    intro s
    have hexec : execScript mocks (c :: cs) s = execScript mocks cs (execCmd mocks s c) := rfl
    cases c with
    | setOutput v =>
      have hl : lastSetOutput (WCmd.setOutput v :: cs) =
          (match lastSetOutput cs with
           | some y => some y
           | none => some v) := foldl_lsoStep_acc cs (some v)
      obtain ⟨h1, h2⟩ := ih (execCmd mocks s (WCmd.setOutput v))
      refine ⟨?_, ?_⟩
      · rw [hexec, hl, h1]
        cases hcs : lastSetOutput cs <;>
          simp [hcs, execCmd, BuilderState.setOutput]
      · rw [hexec, hl, h2]
        cases hcs : lastSetOutput cs <;>
          simp [hcs, execCmd, BuilderState.setOutput]
    | turnAddToolCall i c now =>
      have hpres : (execCmd mocks s (WCmd.turnAddToolCall i c now)).1.output = s.1.output ∧
          (execCmd mocks s (WCmd.turnAddToolCall i c now)).1.outputOverridden
            = s.1.outputOverridden := by
        simp only [execCmd]
        cases s.2.get? i <;> simp [handleAddToolCall]
      obtain ⟨h1, h2⟩ := ih (execCmd mocks s (WCmd.turnAddToolCall i c now))
      exact ⟨by rw [hexec, h1, hpres.1]; exact rfl, by rw [hexec, h2, hpres.2]; exact rfl⟩
    | turnSetResponse i text =>
      have hpres : (execCmd mocks s (WCmd.turnSetResponse i text)).1.output = s.1.output ∧
          (execCmd mocks s (WCmd.turnSetResponse i text)).1.outputOverridden
            = s.1.outputOverridden := by
        simp only [execCmd]
        cases s.2.get? i <;> simp
      obtain ⟨h1, h2⟩ := ih (execCmd mocks s (WCmd.turnSetResponse i text))
      exact ⟨by rw [hexec, h1, hpres.1]; exact rfl, by rw [hexec, h2, hpres.2]; exact rfl⟩
    | turnEnd i now =>
      have hpres : (execCmd mocks s (WCmd.turnEnd i now)).1.output = s.1.output ∧
          (execCmd mocks s (WCmd.turnEnd i now)).1.outputOverridden
            = s.1.outputOverridden := by
        simp only [execCmd]
        cases s.2.get? i <;> simp [handleEnd, BuilderState.addTurn]
      obtain ⟨h1, h2⟩ := ih (execCmd mocks s (WCmd.turnEnd i now))
      exact ⟨by rw [hexec, h1, hpres.1]; exact rfl, by rw [hexec, h2, hpres.2]; exact rfl⟩
    | invokeTool name args ta tb =>
      have hpres : (execCmd mocks s (WCmd.invokeTool name args ta tb)).1.output = s.1.output ∧
          (execCmd mocks s (WCmd.invokeTool name args ta tb)).1.outputOverridden
            = s.1.outputOverridden := by
        simp only [execCmd]
        cases (mocks.find? (fun p => p.1 = name)).map Prod.snd with
        | none => simp
        | some fn =>
          simp only [trackedTool]
          by_cases hf : fn.isForbidden <;>
            simp only [hf, if_true, if_false, Bool.false_eq_true, wrapMock, wrapAsyncMock] <;>
            cases fn.call name args <;>
            simp [BuilderState.recordToolCall]
      obtain ⟨h1, h2⟩ := ih (execCmd mocks s (WCmd.invokeTool name args ta tb))
      exact ⟨by rw [hexec, h1, hpres.1]; exact rfl, by rw [hexec, h2, hpres.2]; exact rfl⟩
    | setCost u =>
      obtain ⟨h1, h2⟩ := ih (execCmd mocks s (WCmd.setCost u))
      exact ⟨by rw [hexec, h1]; exact rfl, by rw [hexec, h2]; exact rfl⟩
    | setTokens tk =>
      obtain ⟨h1, h2⟩ := ih (execCmd mocks s (WCmd.setTokens tk))
      exact ⟨by rw [hexec, h1]; exact rfl, by rw [hexec, h2]; exact rfl⟩
    | setMetadata k v =>
      obtain ⟨h1, h2⟩ := ih (execCmd mocks s (WCmd.setMetadata k v))
      exact ⟨by rw [hexec, h1]; exact rfl, by rw [hexec, h2]; exact rfl⟩
    | addToolCall c now =>
      obtain ⟨h1, h2⟩ := ih (execCmd mocks s (WCmd.addToolCall c now))
      exact ⟨by rw [hexec, h1]; exact rfl, by rw [hexec, h2]; exact rfl⟩
    | startTurn l m now =>
      obtain ⟨h1, h2⟩ := ih (execCmd mocks s (WCmd.startTurn l m now))
      exact ⟨by rw [hexec, h1]; exact rfl, by rw [hexec, h2]; exact rfl⟩

/-- The builder `run` seeds before invoking the agent starts with `undefined`
output and a lowered override flag. -/
lemma seedBuilder_outfields (opts : RunOptions) (t0 : Int) :
    (seedBuilder opts t0).output = JVal.undef ∧
    (seedBuilder opts t0).outputOverridden = false := by
  have key : ∀ (l : List (String × JVal)) (b : BuilderState),
      (l.foldl (fun b kv => b.setMetadata kv.1 kv.2) b).output = b.output ∧
      (l.foldl (fun b kv => b.setMetadata kv.1 kv.2) b).outputOverridden
        = b.outputOverridden := by
    intro l
    induction l with
    | nil => intro b; exact ⟨rfl, rfl⟩
    | cons kv rest ih =>
      intro b
      exact ⟨(ih (b.setMetadata kv.1 kv.2)).1, (ih (b.setMetadata kv.1 kv.2)).2⟩
  exact key opts.metadata ((newTraceBuilder t0).setInput opts.input)

/-! #### C1: successful runs -/

/-- C1: for every agent that completes successfully before the timeout
(modelled by its interactions `cmds` and return value `v`), the trace has
`converged = true` and `stopReason = "converged"`, and its output is the
agent's return value — unless the agent called `setOutput` at some point, in
which case the output is the argument of the last such call, regardless of
the return value. -/
theorem run_success_spec (cmds : List WCmd) (v : JVal) (opts : RunOptions) (t0 tEnd : Int) :
    (runSettled ⟨cmds, .ok v⟩ opts t0 tEnd).converged = true ∧
    (runSettled ⟨cmds, .ok v⟩ opts t0 tEnd).stopReason = .converged ∧
    (lastSetOutput cmds = none → (runSettled ⟨cmds, .ok v⟩ opts t0 tEnd).output = v) ∧
    (∀ y, lastSetOutput cmds = some y →
      (runSettled ⟨cmds, .ok v⟩ opts t0 tEnd).output = y) := by
  obtain ⟨ho, hov⟩ := execScript_outfields opts.mocks cmds (seedBuilder opts t0, [])
  obtain ⟨hso, hsov⟩ := seedBuilder_outfields opts t0
  rw [hso] at ho
  rw [hsov, Bool.or_false] at hov
  refine ⟨?_, ?_, ?_, ?_⟩
  · by_cases h : (execScript opts.mocks cmds (seedBuilder opts t0, [])).1.outputOverridden <;>
      simp [runSettled, BuilderState.setConverged, BuilderState.setStopReason,
        BuilderState.setOutput, BuilderState.build, h]
  · by_cases h : (execScript opts.mocks cmds (seedBuilder opts t0, [])).1.outputOverridden <;>
      simp [runSettled, BuilderState.setConverged, BuilderState.setStopReason,
        BuilderState.setOutput, BuilderState.build, h]
  · intro hl
    rw [hl] at hov
    simp only [Option.isSome_none] at hov
    simp [runSettled, BuilderState.setConverged, BuilderState.setStopReason,
      BuilderState.setOutput, BuilderState.build, hov]
  · intro y hl
    rw [hl] at hov ho
    simp only [Option.isSome_some] at hov
    simp [runSettled, BuilderState.setConverged, BuilderState.setStopReason,
      BuilderState.setOutput, BuilderState.build, hov, ho]

/-- Witness for `run_success_spec`: an agent returning `1` with no `setOutput`
yields output `1`; an agent returning `1` after `setOutput 2` yields `2`. -/
theorem run_success_spec_witness :
    (runSettled ⟨[], .ok (JVal.num 1)⟩ {} 0 1).output = JVal.num 1 ∧
    (runSettled ⟨[.setOutput (JVal.num 2)], .ok (JVal.num 1)⟩ {} 0 1).output = JVal.num 2 :=
  ⟨(run_success_spec [] (JVal.num 1) {} 0 1).2.2.1 rfl,
   (run_success_spec [.setOutput (JVal.num 2)] (JVal.num 1) {} 0 1).2.2.2 (JVal.num 2) rfl⟩

/-! #### C5: throwing tools are recorded before the error propagates -/

/-- C5: for both wrappers, when the underlying mock implementation throws,
the `finally` block still appends a `ToolCall` carrying the tool's name, its
input (the single argument, or the whole argument list) and the error to the
accumulator, and the wrapper re-raises the error rather than swallowing it;
in particular a `mock.forbidden` stand-in (routed through the synchronous
wrapper by `run`) always records its call before its distinguished
`ForbiddenToolError` propagates. -/
theorem wrap_mock_throw_spec :
    (∀ (name : String) (fn : MockFn) (t0 t1 : Int) (b : BuilderState)
        (args : List JVal) (t : Thrown),
      fn.call name args = .thr t →
      wrapMock name fn t0 t1 b args =
        (b.recordToolCall
          { name := name, input := inputOfArgs args, output := .undef
            error := some (coerceThrown t)
            duration := t1 - t0, startedAt := t0, endedAt := t1 },
         Except.error (coerceThrown t)) ∧
      wrapAsyncMock name fn t0 t1 b args =
        (b.recordToolCall
          { name := name, input := inputOfArgs args, output := .undef
            error := some (coerceThrown t)
            duration := t1 - t0, startedAt := t0, endedAt := t1 },
         Except.error (coerceThrown t))) ∧
    (∀ (name : String) (msg : Option String) (t0 t1 : Int) (b : BuilderState)
        (args : List JVal),
      trackedTool name (mockForbidden msg) t0 t1 b args =
        (b.recordToolCall
          { name := name, input := inputOfArgs args, output := .undef
            error := some (forbiddenError name msg)
            duration := t1 - t0, startedAt := t0, endedAt := t1 },
         Except.error (forbiddenError name msg))) := by
  constructor
  · intro name fn t0 t1 b args t h
    constructor
    · simp only [wrapMock, h]
    · simp only [wrapAsyncMock, h]
  · intro name msg t0 t1 b args
    simp only [trackedTool, mockForbidden, if_true, wrapMock, coerceThrown]

/-- Witness for `wrap_mock_throw_spec`: a forbidden tool "deleteUser" — its
implementation throws, the call is still recorded, and the error propagates
out of the wrapper. -/
theorem wrap_mock_throw_spec_witness :
    wrapMock "deleteUser" (mockForbidden none) 0 1 (newTraceBuilder 0) [] =
      ((newTraceBuilder 0).recordToolCall
        { name := "deleteUser", input := inputOfArgs [], output := .undef
          error := some (forbiddenError "deleteUser" none)
          duration := 1, startedAt := 0, endedAt := 1 },
       Except.error (forbiddenError "deleteUser" none)) :=
  ((wrap_mock_throw_spec.1 "deleteUser" (mockForbidden none) 0 1 (newTraceBuilder 0) []
    (.errObj (forbiddenError "deleteUser" none)) rfl).1)

/-! #### C4: turn index assignment -/

/-- Counterexample to C4 as stated: starting two turns without ending the
first gives both handles index 0 — `startTurn` reads `this._turns.length`,
which counts only *ended* turns, so an unended turn's index is reused by the
next `startTurn` instead of the next sequential index being assigned. -/
theorem startTurn_index_reuse_cex :
    ((execScript [] [WCmd.startTurn none none 0, WCmd.startTurn none none 0]
        (newTraceBuilder 0, [])).2.map TurnHandleState.turnIndex) = [0, 0] ∧
    ¬ ((execScript [] [WCmd.startTurn none none 0, WCmd.startTurn none none 0]
        (newTraceBuilder 0, [])).2.map TurnHandleState.turnIndex) = [0, 1] :=
  ⟨rfl, by decide⟩

/-- C4 amended: `startTurn` assigns as index the number of turns *ended* so
far (`this._turns.length` at call time); consequently, when every started
turn is ended before the next `startTurn` (the sequential discipline), the
final turns carry the gapless, strictly increasing indices 0, 1, 2, …; an
unended turn does not advance the counter (see
`startTurn_index_reuse_cex`). -/
theorem turn_index_amended_spec (mocks : List (String × MockFn)) (t0 : Int) :
    (∀ (s : ScriptState) (l : Option String) (m : Option (List (String × JVal))) (now : Int),
      (execCmd mocks s (.startTurn l m now)).2 =
        s.2 ++ [{ turnIndex := s.1.turns.length, label := l, hmeta := m,
                  turnStartedAt := now, turnToolCalls := [], turnResponse := none }]) ∧
    (∀ n : Nat,
      ((execScript mocks (seqTurnCmds n) (newTraceBuilder t0, [])).1.turns.map Turn.index)
        = List.range n) := by
  have key : ∀ n : Nat,
      ((execScript mocks (seqTurnCmds n) (newTraceBuilder t0, [])).1.turns.map Turn.index
        = List.range n) ∧
      (execScript mocks (seqTurnCmds n) (newTraceBuilder t0, [])).2.length = n ∧
      (execScript mocks (seqTurnCmds n) (newTraceBuilder t0, [])).1.turns.length = n := by
    intro n
    induction n with
    | zero => exact ⟨rfl, rfl, rfl⟩
    | succ m ih =>
      obtain ⟨hmap, hhl, htl⟩ := ih
      have happ : execScript mocks (seqTurnCmds (m + 1)) (newTraceBuilder t0, [])
          = execScript mocks [WCmd.startTurn none none 0, WCmd.turnEnd m 0]
              (execScript mocks (seqTurnCmds m) (newTraceBuilder t0, [])) := by
        rw [show seqTurnCmds (m + 1)
            = seqTurnCmds m ++ [WCmd.startTurn none none 0, WCmd.turnEnd m 0] from rfl]
        exact List.foldl_append _ _ _ _
      set sn := execScript mocks (seqTurnCmds m) (newTraceBuilder t0, []) with hsn
      have h1 : execCmd mocks sn (WCmd.startTurn none none 0)
          = (sn.1, sn.2 ++ [startTurn sn.1 none none 0]) := rfl
      have hget : (sn.2 ++ [startTurn sn.1 none none 0]).get? m
          = some (startTurn sn.1 none none 0) := by
        rw [← hhl]
        exact List.get?_concat_length _ _
      have h2 : execCmd mocks (sn.1, sn.2 ++ [startTurn sn.1 none none 0]) (WCmd.turnEnd m 0)
          = (handleEnd (startTurn sn.1 none none 0) sn.1 0,
             sn.2 ++ [startTurn sn.1 none none 0]) := by
        simp only [execCmd, hget]
      have hcomb : execScript mocks [WCmd.startTurn none none 0, WCmd.turnEnd m 0] sn
          = (handleEnd (startTurn sn.1 none none 0) sn.1 0,
             sn.2 ++ [startTurn sn.1 none none 0]) := by
        show execCmd mocks (execCmd mocks sn (WCmd.startTurn none none 0)) (WCmd.turnEnd m 0) = _
        rw [h1, h2]
      rw [happ, hcomb]
      refine ⟨?_, ?_, ?_⟩
      · simp [handleEnd, BuilderState.addTurn, hmap, startTurn, htl, List.range_succ]
      · simp [hhl]
      · simp [handleEnd, BuilderState.addTurn, htl]
  exact ⟨fun s l m now => rfl, fun n => (key n).1⟩

/-- Membership in an insertion-sort insert. -/
lemma mem_insertStr (a x : String) : ∀ (l : List String),
    a ∈ insertStr x l ↔ a = x ∨ a ∈ l := by
  intro l
  induction l with
  | nil => simp [insertStr]
  | cons y ys ih =>
    by_cases h : x < y
    · simp [insertStr, h]
    · simp only [insertStr, h, if_false]
      constructor
      · intro hm
        rcases List.mem_cons.mp hm with h1 | h1
        · exact Or.inr (h1 ▸ List.mem_cons_self y ys)
        · rcases ih.mp h1 with h2 | h2
          · exact Or.inl h2
          · exact Or.inr (List.mem_cons_of_mem y h2)
      · intro hm
        rcases hm with h1 | h1
        · exact List.mem_cons_of_mem y (ih.mpr (Or.inl h1))
        · rcases List.mem_cons.mp h1 with h2 | h2
          · exact h2 ▸ List.mem_cons_self y _
          · exact List.mem_cons_of_mem y (ih.mpr (Or.inr h2))

/-- Sorting does not change membership. -/
lemma mem_sortStrings (a : String) : ∀ (l : List String),
    a ∈ sortStrings l ↔ a ∈ l := by
  intro l
  induction l with
  | nil => simp [sortStrings]
  | cons x xs ih =>
    simp only [sortStrings, mem_insertStr, ih, List.mem_cons]

/-- Membership in the deduplication worker: anything from the input not
already seen. -/
lemma mem_dedupAux (a : String) : ∀ (l seen : List String),
    a ∈ dedupAux seen l ↔ a ∈ l ∧ a ∉ seen := by
  intro l
  induction l with
  | nil => simp [dedupAux]
  | cons x xs ih =>
    intro seen
    by_cases h : x ∈ seen
    · simp only [dedupAux, h, if_true, ih, List.mem_cons]
      constructor
      · rintro ⟨h1, h2⟩; exact ⟨Or.inr h1, h2⟩
      · rintro ⟨h1 | h1, h2⟩
        · exact absurd (h1 ▸ h) h2
        · exact ⟨h1, h2⟩
    · simp only [dedupAux, h, if_false, List.mem_cons, ih, List.mem_cons]
      constructor
      · rintro (h1 | ⟨h1, h2⟩)
        · exact ⟨Or.inl h1, h1 ▸ h⟩
        · exact ⟨Or.inr h1, fun hx => h2 (Or.inr hx)⟩
      · rintro ⟨h1 | h1, h2⟩
        · exact Or.inl h1
        · by_cases hax : a = x
          · exact Or.inl hax
          · exact Or.inr ⟨h1, fun hx => (by
              rcases hx with hx | hx
              · exact hax hx
              · exact h2 hx)⟩

/-- `[...new Set(xs)]` does not change membership. -/
lemma mem_dedupFirst (a : String) (l : List String) :
    a ∈ dedupFirst l ↔ a ∈ l := by
  simp [dedupFirst, mem_dedupAux]

/-! #### C6: extract-then-compare round trip -/

/-- C6: comparing any trace against the baseline freshly extracted from it
passes with an empty differences list — none of the six dimensions (tool set,
tool order, turn count, cost, tokens, stop reason) reports drift for the
trace its baseline came from. -/
theorem compare_extract_roundtrip (t : Trace) :
    compareBaseline t (extractBaseline t) = ⟨true, []⟩ := by
  unfold compareBaseline extractBaseline
  rcases hc : t.cost with _ | c <;> rcases ht : t.tokens with _ | tk
  · simp [hc, ht, mem_sortStrings, lt_irrefl]
  · rcases htt : tk.total with _ | tot <;> simp [hc, ht, htt, mem_sortStrings, lt_irrefl]
  · simp [hc, ht, mem_sortStrings, lt_irrefl]
  · rcases htt : tk.total with _ | tot <;> simp [hc, ht, htt, mem_sortStrings, lt_irrefl]

/-! #### C7: updateBaseline widens monotonically -/

/-- C7: the merged baseline's turn-count range contains both inputs' ranges
(`min` is `≤` both minima, `max` is `≥` both maxima); the cost and token
ranges widen the same way whenever the corresponding input range is present;
and `toolOrder` and `stopReason` are not updated — the existing baseline's
reference values are kept verbatim. -/
theorem updateBaseline_monotone (existing : Baseline) (trace : Trace) :
    (updateBaseline existing trace).turnCount.min ≤ existing.turnCount.min ∧
    (updateBaseline existing trace).turnCount.min ≤ (extractBaseline trace).turnCount.min ∧
    existing.turnCount.max ≤ (updateBaseline existing trace).turnCount.max ∧
    (extractBaseline trace).turnCount.max ≤ (updateBaseline existing trace).turnCount.max ∧
    (∀ r, existing.costRange = some r →
      ∃ m, (updateBaseline existing trace).costRange = some m ∧
        m.min ≤ r.min ∧ r.max ≤ m.max) ∧
    (∀ r, (extractBaseline trace).costRange = some r →
      ∃ m, (updateBaseline existing trace).costRange = some m ∧
        m.min ≤ r.min ∧ r.max ≤ m.max) ∧
    (∀ r, existing.tokenRange = some r →
      ∃ m, (updateBaseline existing trace).tokenRange = some m ∧
        m.min ≤ r.min ∧ r.max ≤ m.max) ∧
    (∀ r, (extractBaseline trace).tokenRange = some r →
      ∃ m, (updateBaseline existing trace).tokenRange = some m ∧
        m.min ≤ r.min ∧ r.max ≤ m.max) ∧
    (updateBaseline existing trace).toolOrder = existing.toolOrder ∧
    (updateBaseline existing trace).stopReason = existing.stopReason := by
  refine ⟨?_, ?_, ?_, ?_, ?_, ?_, ?_, ?_, rfl, rfl⟩
  · simp [updateBaseline]
  · simp [updateBaseline]
  · simp [updateBaseline]
  · simp [updateBaseline]
  · intro r hr
    rcases htr : (extractBaseline trace).costRange with _ | tr <;>
      simp [updateBaseline, htr, hr]
  · intro r hr
    rcases her : existing.costRange with _ | er <;>
      simp [updateBaseline, hr, her]
  · intro r hr
    rcases htr : (extractBaseline trace).tokenRange with _ | tr <;>
      simp [updateBaseline, htr, hr]
  · intro r hr
    rcases her : existing.tokenRange with _ | er <;>
      simp [updateBaseline, hr, her]

/-- Witness for `updateBaseline_monotone`: merging `sampleBaseline` (cost
range [1,2], token range [10,20], turn range [1,3]) with `sampleTrace` (cost
5, tokens 7, 0 turns) widens every range around both inputs and keeps the
original `toolOrder` and `stopReason`. -/
theorem updateBaseline_monotone_witness :
    (updateBaseline sampleBaseline sampleTrace).turnCount.min ≤ 0 ∧
    (∃ m, (updateBaseline sampleBaseline sampleTrace).costRange = some m ∧
      m.min ≤ (1 : Rat) ∧ (2 : Rat) ≤ m.max) ∧
    (∃ m, (updateBaseline sampleBaseline sampleTrace).costRange = some m ∧
      m.min ≤ (5 : Rat) ∧ (5 : Rat) ≤ m.max) ∧
    (∃ m, (updateBaseline sampleBaseline sampleTrace).tokenRange = some m ∧
      m.min ≤ 10 ∧ 20 ≤ m.max) ∧
    (∃ m, (updateBaseline sampleBaseline sampleTrace).tokenRange = some m ∧
      m.min ≤ 7 ∧ 7 ≤ m.max) ∧
    (updateBaseline sampleBaseline sampleTrace).toolOrder = ["a"] ∧
    (updateBaseline sampleBaseline sampleTrace).stopReason = .converged := by
  have h := updateBaseline_monotone sampleBaseline sampleTrace
  refine ⟨?_, h.2.2.2.2.1 ⟨1, 2⟩ rfl, h.2.2.2.2.2.1 ⟨5, 5⟩ rfl,
    h.2.2.2.2.2.2.1 ⟨10, 20⟩ rfl, h.2.2.2.2.2.2.2.1 ⟨7, 7⟩ rfl,
    h.2.2.2.2.2.2.2.2.1, h.2.2.2.2.2.2.2.2.2⟩
  exact le_trans h.2.1 (by rfl)

/-- One tool call through the codec: the error slot keeps its message and
name (only the stack can differ, when the engine regenerates it). -/
lemma roundtrip_toolCall_err (autoStack : String) (tc : ToolCall) :
    (deserializeToolCall autoStack (serializeToolCall tc)).error.map
        (fun e => (e.message, e.name))
      = tc.error.map (fun e => (e.message, e.name)) := by
  rcases he : tc.error with _ | e <;>
    simp [deserializeToolCall, serializeToolCall, deserializeErrorSlot,
      isSerializedError, serializeError, deserializeError, he]

/-- Tool-call lists through the codec keep their error messages and names. -/
lemma roundtrip_toolCalls_err (autoStack : String) : ∀ (l : List ToolCall),
    ((l.map serializeToolCall).map (deserializeToolCall autoStack)).map
        (fun tc => tc.error.map (fun e => (e.message, e.name)))
      = l.map (fun tc => tc.error.map (fun e => (e.message, e.name))) := by
  intro l
  induction l with
  | nil => rfl
  | cons tc rest ih =>
    simp only [List.map_cons, roundtrip_toolCall_err, ih]

/-! #### C8: codec round trip -/

/-- C8: deserializing the serialization of any trace (all payloads in this
embedding are JSON-representable values) preserves `converged`, `stopReason`,
`input`, `output`, `cost`, `tokens` and `metadata` exactly, keeps the
tool-call and turn counts, and reconstructs the trace-level error and every
tool call's error with message and name intact (`autoStack` is the
engine-generated stack of `new Error(...)` during reconstruction). -/
theorem serialize_roundtrip_spec (t : Trace) (autoStack : String) :
    (deserializeTrace autoStack (serializeTrace t)).converged = t.converged ∧
    (deserializeTrace autoStack (serializeTrace t)).stopReason = t.stopReason ∧
    (deserializeTrace autoStack (serializeTrace t)).input = t.input ∧
    (deserializeTrace autoStack (serializeTrace t)).output = t.output ∧
    (deserializeTrace autoStack (serializeTrace t)).cost = t.cost ∧
    (deserializeTrace autoStack (serializeTrace t)).tokens = t.tokens ∧
    (deserializeTrace autoStack (serializeTrace t)).metadata = t.metadata ∧
    (deserializeTrace autoStack (serializeTrace t)).toolCalls.length
      = t.toolCalls.length ∧
    (deserializeTrace autoStack (serializeTrace t)).turns.length = t.turns.length ∧
    (deserializeTrace autoStack (serializeTrace t)).error.map
        (fun e => (e.message, e.name))
      = t.error.map (fun e => (e.message, e.name)) ∧
    (deserializeTrace autoStack (serializeTrace t)).toolCalls.map
        (fun tc => tc.error.map (fun e => (e.message, e.name)))
      = t.toolCalls.map (fun tc => tc.error.map (fun e => (e.message, e.name))) := by
  refine ⟨rfl, rfl, rfl, rfl, rfl, rfl, rfl, ?_, ?_, ?_, ?_⟩
  · simp [deserializeTrace, serializeTrace]
  · simp [deserializeTrace, serializeTrace]
  · rcases he : t.error with _ | e <;>
      simp [deserializeTrace, serializeTrace, deserializeErrorSlot,
        isSerializedError, serializeError, deserializeError, he]
  · simpa [deserializeTrace, serializeTrace]
      using roundtrip_toolCalls_err autoStack t.toolCalls

/-- `getD` after `set` at a different index is unchanged. -/
lemma list_getD_set_ne {α : Type} (l : List α) (i j : Nat) (x d : α) (hij : i ≠ j) :
    (l.set i x).getD j d = l.getD j d := by
  simp [List.getD, List.getElem?_set_ne hij]

/-- `getD` of an appended singleton at the old length is that element. -/
lemma list_getD_concat_length {α : Type} (l : List α) (x d : α) :
    (l ++ [x]).getD l.length d = x := by
  simp [List.getD, List.getElem?_concat_length]

/-! #### C10: build snapshots are not live views -/

/-- C10: `build()` hands the trace fresh copies of the builder's two arrays
(the references allocated by the spread copies), holding exactly the
builder's contents at build time; mutating the builder afterwards — recording
another tool call, adding a turn, or ending a turn handle started earlier —
does not change what the already-returned trace's references dereference to,
so events emitted by an abandoned (timed-out) agent after `build()` never
appear in that trace. -/
theorem build_snapshot_spec (h : TBHeap) (b : TBRefs)
    (hb1 : b.tcRef < h.tcArrays.length) (hb2 : b.turnRef < h.turnArrays.length)
    (c : ToolCall) (t : Turn) (hd : TurnHandleState) (now : Int) :
    readTC (hBuild h b).1 (hBuild h b).2.tcRef = readTC h b.tcRef ∧
    readTurns (hBuild h b).1 (hBuild h b).2.turnRef = readTurns h b.turnRef ∧
    readTC (hRecordToolCall (hBuild h b).1 b c) (hBuild h b).2.tcRef
      = readTC (hBuild h b).1 (hBuild h b).2.tcRef ∧
    readTurns (hRecordToolCall (hBuild h b).1 b c) (hBuild h b).2.turnRef
      = readTurns (hBuild h b).1 (hBuild h b).2.turnRef ∧
    readTC (hAddTurn (hBuild h b).1 b t) (hBuild h b).2.tcRef
      = readTC (hBuild h b).1 (hBuild h b).2.tcRef ∧
    readTurns (hAddTurn (hBuild h b).1 b t) (hBuild h b).2.turnRef
      = readTurns (hBuild h b).1 (hBuild h b).2.turnRef ∧
    readTC (hTurnEnd (hBuild h b).1 b hd now) (hBuild h b).2.tcRef
      = readTC (hBuild h b).1 (hBuild h b).2.tcRef ∧
    readTurns (hTurnEnd (hBuild h b).1 b hd now) (hBuild h b).2.turnRef
      = readTurns (hBuild h b).1 (hBuild h b).2.turnRef := by
  have hne1 : b.tcRef ≠ h.tcArrays.length := Nat.ne_of_lt hb1
  have hne2 : b.turnRef ≠ h.turnArrays.length := Nat.ne_of_lt hb2
  have htcRef : (hBuild h b).2.tcRef = h.tcArrays.length := rfl
  have hturnRef : (hBuild h b).2.turnRef = h.turnArrays.length := rfl
  have harr1 : (hBuild h b).1.tcArrays = h.tcArrays ++ [readTC h b.tcRef] := rfl
  have harr2 : (hBuild h b).1.turnArrays = h.turnArrays ++ [readTurns h b.turnRef] := rfl
  refine ⟨?_, ?_, ?_, rfl, rfl, ?_, rfl, ?_⟩
  · rw [readTC, harr1, htcRef]
    exact list_getD_concat_length _ _ _
  · rw [readTurns, harr2, hturnRef]
    exact list_getD_concat_length _ _ _
  · rw [show readTC (hRecordToolCall (hBuild h b).1 b c) (hBuild h b).2.tcRef
        = ((hBuild h b).1.tcArrays.set b.tcRef
            (readTC (hBuild h b).1 b.tcRef ++ [c])).getD (hBuild h b).2.tcRef []
      from rfl]
    rw [htcRef, readTC]
    refine list_getD_set_ne _ _ _ _ _ hne1
  · rw [show readTurns (hAddTurn (hBuild h b).1 b t) (hBuild h b).2.turnRef
        = ((hBuild h b).1.turnArrays.set b.turnRef
            (readTurns (hBuild h b).1 b.turnRef ++ [t])).getD (hBuild h b).2.turnRef []
      from rfl]
    rw [hturnRef, readTurns]
    refine list_getD_set_ne _ _ _ _ _ hne2
  · rw [show readTurns (hTurnEnd (hBuild h b).1 b hd now) (hBuild h b).2.turnRef
        = ((hBuild h b).1.turnArrays.set b.turnRef
            (readTurns (hBuild h b).1 b.turnRef ++
              [{ index := hd.turnIndex, label := hd.label, toolCalls := hd.turnToolCalls
                 response := hd.turnResponse, duration := now - hd.turnStartedAt
                 startedAt := hd.turnStartedAt, endedAt := now,
                 metadata := hd.hmeta }])).getD (hBuild h b).2.turnRef []
      from rfl]
    rw [hturnRef, readTurns]
    refine list_getD_set_ne _ _ _ _ _ hne2

/-- Witness for `build_snapshot_spec`: a one-slot heap per array kind; after
build, recording another tool call through the builder leaves the built
trace's tool-call array unchanged. -/
theorem build_snapshot_spec_witness :
    readTC (hRecordToolCall (hBuild ⟨[[]], [[]]⟩ ⟨0, 0⟩).1 ⟨0, 0⟩
        { name := "late", input := .undef, output := .undef, error := none
          duration := 0, startedAt := 0, endedAt := 0 })
      (hBuild ⟨[[]], [[]]⟩ ⟨0, 0⟩).2.tcRef
    = readTC (hBuild ⟨[[]], [[]]⟩ ⟨0, 0⟩).1 (hBuild ⟨[[]], [[]]⟩ ⟨0, 0⟩).2.tcRef :=
  (build_snapshot_spec ⟨[[]], [[]]⟩ ⟨0, 0⟩ (by decide) (by decide)
    { name := "late", input := .undef, output := .undef, error := none
      duration := 0, startedAt := 0, endedAt := 0 }
    { index := 0, label := none, toolCalls := [], response := none
      duration := 0, startedAt := 0, endedAt := 0, metadata := none }
    { turnIndex := 0, label := none, hmeta := none, turnStartedAt := 0
      turnToolCalls := [], turnResponse := none } 0).2.2.1
